import Mathlib

/-!
Verification of the keyring fan-out command (`command/keyring/keyring.go`)
against its natural-language specification.

Go strings are modelled as lists of characters (`GoString`); Go maps
(`map[string]string`, `map[string]int`) are modelled as association lists
whose order is the iteration order the runtime happens to present — the
underlying mapping is the list up to permutation.  The cluster client
(`consulapi.Client.Operator()`) is an external collaborator and is modelled
as an oracle record of response functions.  All stateful behaviour of `Run`
(UI lines, client construction, dispatched verbs) is made explicit in a
`RunResult` record.
-/

/-- A Go string, as the list of its characters. -/
abbrev GoString := List Char

/-- The newline character, as a one-character string. -/
def nl : GoString := ['\n']

/-- `strings.Join(xs, sep)`: the elements interleaved with the separator. -/
def goJoin (sep : GoString) : List GoString → GoString
  | [] => []
  | [x] => x
  | x :: y :: rest => x ++ sep ++ goJoin sep (y :: rest)

/-- `strings.Replace(s, "\n\n", "\n", -1)`: one left-to-right pass replacing
every non-overlapping occurrence of two consecutive newlines by one. -/
def collapseNN : GoString → GoString
  | [] => []
  | [c] => [c]
  | c1 :: c2 :: rest =>
    if c1 = '\n' ∧ c2 = '\n' then '\n' :: collapseNN rest
    else c1 :: collapseNN (c2 :: rest)

/-- Whether the string contains two consecutive newline characters. -/
def hasNN : GoString → Bool
  | [] => false
  | [_] => false
  | c1 :: c2 :: rest =>
    if c1 = '\n' ∧ c2 = '\n' then true else hasNN (c2 :: rest)

/-- Whether `p` occurs at the start of `s`. -/
def goStarts : GoString → GoString → Bool
  | _, [] => true
  | [], _ :: _ => false
  | c :: s, d :: p => c == d && goStarts s p

/-- Whether `p` occurs somewhere inside `s` (`strings.Contains`). -/
def goContains (p : GoString) : GoString → Bool
  | [] => goStarts [] p
  | c :: s => goStarts (c :: s) p || goContains p s

/-- The decimal digit characters, for rendering `%d`. -/
def digitChar (d : Nat) : Char :=
  if d = 0 then '0' else if d = 1 then '1' else if d = 2 then '2'
  else if d = 3 then '3' else if d = 4 then '4' else if d = 5 then '5'
  else if d = 6 then '6' else if d = 7 then '7' else if d = 8 then '8' else '9'

/-- Decimal rendering with a structural fuel argument (the fuel only bounds
the recursion depth; any fuel above the digit count gives the digits). -/
def natCharsAux : Nat → Nat → GoString
  | 0, _ => []
  | fuel + 1, n =>
    if n < 10 then [digitChar n]
    else natCharsAux fuel (n / 10) ++ [digitChar (n % 10)]

/-- `fmt.Sprintf("%d", n)` for a non-negative value: decimal digits
(`n + 1` always exceeds the digit count of `n`). -/
def natChars (n : Nat) : GoString := natCharsAux (n + 1) n

/-- `fmt.Sprintf("%d", i)` for a Go `int`: sign then decimal digits. -/
def intChars (i : Int) : GoString :=
  if i < 0 then '-' :: natChars (-i).toNat else natChars i.toNat

/-- `consulapi.QueryOptions`, restricted to the fields the command sets. -/
structure QueryOptions where
  RelayFactor : Nat
  LocalOnly : Bool
deriving DecidableEq, Repr

/-- `consulapi.WriteOptions`, restricted to the fields the command sets. -/
structure WriteOptions where
  RelayFactor : Nat
deriving DecidableEq, Repr

/-- `consulapi.KeyringResponse`: one per-pool response.  The Go maps
`Messages`, `Keys` and `PrimaryKeys` are association lists in the iteration
order the runtime presents; the mapping itself is the list up to
permutation of its (distinct-keyed) entries. -/
structure KeyringResponse where
  WAN : Bool
  Datacenter : GoString
  Segment : GoString
  Messages : List (GoString × GoString)
  Keys : List (GoString × Int)
  PrimaryKeys : List (GoString × Int)
  NumNodes : Int
deriving DecidableEq, Repr

/-- The keyring verbs of the cluster client.  The client used by the source
(`consulapi` `Operator`) exposes exactly `KeyringList`, `KeyringInstall`,
`KeyringUse` and `KeyringRemove`.  `KeyringListPrimary` is modelled from the
spec: the spec's external-interface section lists a distinct
`ListPrimary(queryOptions)` verb, which no method of the source's client
corresponds to; the constructor exists so that statements about that verb
can be expressed. -/
inductive Verb where
  | KeyringList (opts : QueryOptions)
  | KeyringListPrimary (opts : QueryOptions)
  | KeyringInstall (key : GoString) (opts : WriteOptions)
  | KeyringUse (key : GoString) (opts : WriteOptions)
  | KeyringRemove (key : GoString) (opts : WriteOptions)
deriving DecidableEq, Repr

/-- Whether a verb is the spec's distinct ListPrimary read verb. -/
def Verb.isListPrimaryVerb : Verb → Bool
  | .KeyringListPrimary _ => true
  | _ => false

/-- The cluster client as an oracle: what each verb would return.  This
stands for `client.Operator()` of the external `consulapi` collaborator. -/
structure Client where
  keyringList : QueryOptions → Except GoString (List KeyringResponse)
  keyringInstall : GoString → WriteOptions → Except GoString Unit
  keyringUse : GoString → WriteOptions → Except GoString Unit
  keyringRemove : GoString → WriteOptions → Except GoString Unit

/-- Which of the five command branches of `Run` executed. -/
inductive BranchTag where
  | list
  | listPrimary
  | install
  | use
  | remove
deriving DecidableEq, Repr

/-- The flag fields of the `cmd` struct after flag parsing.  `localOnly`
models the Go field `local` (`-local-only`), renamed because `local` is a
reserved word here. -/
structure Flags where
  installKey : GoString
  useKey : GoString
  removeKey : GoString
  listKeys : Bool
  listPrimaryKeys : Bool
  relay : Int
  localOnly : Bool
deriving DecidableEq, Repr

/-- Everything observable about one `Run` invocation: the exit code, the
lines passed to `UI.Info` / `UI.Error` / `UI.Output`, whether the
`APIClient()` construction was reached, the dispatcher verbs invoked, which
command branch executed, and whether the trailing fall-through return was
reached. -/
structure RunResult where
  exitCode : Nat
  infos : List GoString
  errors : List GoString
  output : List GoString
  clientRequested : Bool
  verbs : List Verb
  branch : Option BranchTag
  fellThrough : Bool
deriving DecidableEq, Repr

/-- Modelled from the spec: `agent.ParseRelayFactor` is not under `src/`.
Per the spec's Relay Policy contract it returns the validated factor and
fails exactly when the requested value is negative or exceeds the maximum
of 5. -/
def ParseRelayFactor (n : Int) : Except GoString Nat :=
  if 0 ≤ n ∧ n ≤ 5 then .ok n.toNat
  else .error ("relay-factor must be in range [0, 5]").toList

/-- Modelled from the spec: `agent.ValidateLocalOnly` is not under `src/`.
Per the spec's Scope Validator contract and the flag's help text ("This
flag can only be set for list queries"), it fails exactly when local-only
is requested and the list indicator supplied by the caller is false.  Note
the source call site supplies `c.listKeys` alone as that indicator. -/
def ValidateLocalOnly (localOnly : Bool) (list : Bool) : Except GoString Unit :=
  if localOnly && !list then
    .error ("local-only can only be used for list queries").toList
  else .ok ()

/-- The single-action loop of `Run`: starting from whether a list flag is
set, walk the three key arguments; seeing a populated argument when an
action was already found is the usage error (`none`); otherwise return
whether any action was found. -/
def singleLoop : Bool → List GoString → Option Bool
  | found, [] => some found
  | found, arg :: rest =>
    if found && decide (0 < arg.length) then none
    else singleLoop (found || decide (0 < arg.length)) rest

/-- The `help` usage text of the command. -/
def helpText : GoString :=
  ("\nUsage: consul keyring [options]\n\n" ++
   "  Manages encryption keys used for gossip messages. Gossip encryption is\n" ++
   "  optional. When enabled, this command may be used to examine active encryption\n" ++
   "  keys in the cluster, add new keys, and remove old ones. When combined, this\n" ++
   "  functionality provides the ability to perform key rotation cluster-wide,\n" ++
   "  without disrupting the cluster.\n\n" ++
   "  All operations performed by this command can only be run against server nodes,\n" ++
   "  and affect both the LAN and WAN keyrings in lock-step.\n\n" ++
   "  All variations of the keyring command return 0 if all nodes reply and there\n" ++
   "  are no errors. If any node fails to reply or reports failure, the exit code\n" ++
   "  will be 1.\n").toList

/-- One formatted diagnostic line: `fmt.Sprintf("  ===> %s: %s", from, msg)`. -/
def msgLine (p : GoString × GoString) : GoString :=
  ("  ===> ").toList ++ p.1 ++ (": ").toList ++ p.2

/-- One formatted key-status line:
`fmt.Sprintf("  %s [%d/%d]", key, num, total)`. -/
def keyLine (total : Int) (p : GoString × Int) : GoString :=
  ("  ").toList ++ p.1 ++ (" [").toList ++ intChars p.2 ++ ("/").toList ++
    intChars total ++ ("]").toList

/-- `formatMessages`: one `  ===> from: msg` line per map entry, joined by
newlines (the loop over the map appends one line per entry). -/
def formatMessages (messages : List (GoString × GoString)) : GoString :=
  goJoin nl (messages.map msgLine)

/-- `formatKeys`: one `  key [num/total]` line per map entry, joined by
newlines. -/
def formatKeys (keys : List (GoString × Int)) (total : Int) : GoString :=
  goJoin nl (keys.map (keyLine total))

/-- `poolName`: `"%s (LAN)"` of the datacenter, replaced by `"WAN"` for the
wide-area pool, then suffixed with `" [%s]"` of the segment when the
segment is non-empty. -/
def poolName (dc : GoString) (wan : Bool) (segment : GoString) : GoString :=
  let pool := if wan then ("WAN").toList else dc ++ (" (LAN)").toList
  let seg := if segment ≠ [] then (" [").toList ++ segment ++ ("]").toList
             else segment
  pool ++ seg

/-- `formatResponse`: join `["", name + ":", messages, keys]` with newlines,
then replace every `"\n\n"` by `"\n"` in one pass. -/
def formatResponse (response : KeyringResponse) (keys : List (GoString × Int)) :
    GoString :=
  collapseNN (goJoin nl
    [[],
     poolName response.Datacenter response.WAN response.Segment ++ [':'],
     formatMessages response.Messages,
     formatKeys keys response.NumNodes])

/-- `Run` after flag parsing: the argument checks, option validation,
client construction and the five command branches, with every observable
effect recorded in the result. -/
def Run (c : Flags) (apiClient : Except GoString Client) : RunResult :=
  match singleLoop (c.listKeys || c.listPrimaryKeys)
      [c.installKey, c.useKey, c.removeKey] with
  | none =>
    { exitCode := 1, infos := [], errors := [("Only a single action is allowed").toList],
      output := [], clientRequested := false, verbs := [], branch := none,
      fellThrough := false }
  | some found =>
    if !found then
      { exitCode := 1, infos := [], errors := [helpText], output := [],
        clientRequested := false, verbs := [], branch := none, fellThrough := false }
    else
      match ParseRelayFactor c.relay with
      | .error e =>
        { exitCode := 1, infos := [],
          errors := [("Error parsing relay factor: ").toList ++ e], output := [],
          clientRequested := false, verbs := [], branch := none, fellThrough := false }
      | .ok relayFactor =>
        match ValidateLocalOnly c.localOnly c.listKeys with
        | .error e =>
          { exitCode := 1, infos := [],
            errors := [("Error validating local-only: ").toList ++ e], output := [],
            clientRequested := false, verbs := [], branch := none, fellThrough := false }
        | .ok _ =>
          match apiClient with
          | .error e =>
            { exitCode := 1, infos := [],
              errors := [("Error connecting to Consul agent: ").toList ++ e],
              output := [], clientRequested := true, verbs := [], branch := none,
              fellThrough := false }
          | .ok client =>
            if c.listKeys then
              let opts : QueryOptions :=
                { RelayFactor := relayFactor, LocalOnly := c.localOnly }
              match client.keyringList opts with
              | .error e =>
                { exitCode := 1,
                  infos := [("Gathering installed encryption keys...").toList],
                  errors := [("error: ").toList ++ e], output := [],
                  clientRequested := true, verbs := [.KeyringList opts],
                  branch := some .list, fellThrough := false }
              | .ok responses =>
                { exitCode := 0,
                  infos := [("Gathering installed encryption keys...").toList],
                  errors := [],
                  output := responses.map (fun r => formatResponse r r.Keys),
                  clientRequested := true, verbs := [.KeyringList opts],
                  branch := some .list, fellThrough := false }
            else if c.listPrimaryKeys then
              let opts : QueryOptions :=
                { RelayFactor := relayFactor, LocalOnly := c.localOnly }
              match client.keyringList opts with
              | .error e =>
                { exitCode := 1,
                  infos := [("Gathering installed primary encryption keys...").toList],
                  errors := [("error: ").toList ++ e], output := [],
                  clientRequested := true, verbs := [.KeyringList opts],
                  branch := some .listPrimary, fellThrough := false }
              | .ok responses =>
                { exitCode := 0,
                  infos := [("Gathering installed primary encryption keys...").toList],
                  errors := [],
                  output := responses.map (fun r => formatResponse r r.PrimaryKeys),
                  clientRequested := true, verbs := [.KeyringList opts],
                  branch := some .listPrimary, fellThrough := false }
            else
              let opts : WriteOptions := { RelayFactor := relayFactor }
              if c.installKey ≠ [] then
                match client.keyringInstall c.installKey opts with
                | .error e =>
                  { exitCode := 1,
                    infos := [("Installing new gossip encryption key...").toList],
                    errors := [("error: ").toList ++ e], output := [],
                    clientRequested := true,
                    verbs := [.KeyringInstall c.installKey opts],
                    branch := some .install, fellThrough := false }
                | .ok _ =>
                  { exitCode := 0,
                    infos := [("Installing new gossip encryption key...").toList],
                    errors := [], output := [], clientRequested := true,
                    verbs := [.KeyringInstall c.installKey opts],
                    branch := some .install, fellThrough := false }
              else if c.useKey ≠ [] then
                match client.keyringUse c.useKey opts with
                | .error e =>
                  { exitCode := 1,
                    infos := [("Changing primary gossip encryption key...").toList],
                    errors := [("error: ").toList ++ e], output := [],
                    clientRequested := true, verbs := [.KeyringUse c.useKey opts],
                    branch := some .use, fellThrough := false }
                | .ok _ =>
                  { exitCode := 0,
                    infos := [("Changing primary gossip encryption key...").toList],
                    errors := [], output := [], clientRequested := true,
                    verbs := [.KeyringUse c.useKey opts],
                    branch := some .use, fellThrough := false }
              else if c.removeKey ≠ [] then
                match client.keyringRemove c.removeKey opts with
                | .error e =>
                  { exitCode := 1,
                    infos := [("Removing gossip encryption key...").toList],
                    errors := [("error: ").toList ++ e], output := [],
                    clientRequested := true,
                    verbs := [.KeyringRemove c.removeKey opts],
                    branch := some .remove, fellThrough := false }
                | .ok _ =>
                  { exitCode := 0,
                    infos := [("Removing gossip encryption key...").toList],
                    errors := [], output := [], clientRequested := true,
                    verbs := [.KeyringRemove c.removeKey opts],
                    branch := some .remove, fellThrough := false }
              else
                { exitCode := 0, infos := [], errors := [], output := [],
                  clientRequested := true, verbs := [], branch := none,
                  fellThrough := true }

/-- Whether an `Except` value is a success. -/
def exceptOk {ε α : Type} : Except ε α → Bool
  | .ok _ => true
  | .error _ => false

/-- Two adjacent characters are not both newlines (adjacency relation of
collapse-free strings). -/
def NotNN (a b : Char) : Prop := ¬(a = '\n' ∧ b = '\n')

/-- The block exactly as claim C8 words it, for comparison with the source
formatter: a header line `<site> (LAN)` / `WAN` with optional ` [segment]`
suffix, then indented `from: message` lines, then indented
`<key> [<count>/<total>]` lines. -/
def claimedBlockC8 (response : KeyringResponse) (keys : List (GoString × Int)) :
    GoString :=
  goJoin nl
    (poolName response.Datacenter response.WAN response.Segment ::
     ((response.Messages.map fun p => ("  ").toList ++ p.1 ++ (": ").toList ++ p.2) ++
      keys.map (keyLine response.NumNodes)))

/-- A flags record with nothing set, to build concrete invocations from. -/
def noFlags : Flags :=
  { installKey := [], useKey := [], removeKey := [], listKeys := false,
    listPrimaryKeys := false, relay := 0, localOnly := false }

/-- A client oracle whose list verb succeeds with the given responses and
whose write verbs succeed. -/
def okClient (rs : List KeyringResponse) : Client :=
  { keyringList := fun _ => .ok rs,
    keyringInstall := fun _ _ => .ok (),
    keyringUse := fun _ _ => .ok (),
    keyringRemove := fun _ _ => .ok () }

/-- A successfully constructed client with no pools. -/
def emptyOkClient : Except GoString Client := .ok (okClient [])

/-- C1 scenario: a pool whose response carries a node-keyed error message. -/
def c1resp : KeyringResponse :=
  { WAN := false, Datacenter := ("dc1").toList, Segment := [],
    Messages := [(("node1").toList, ("cannot remove primary key").toList)],
    Keys := [(("abc123").toList, 3)], PrimaryKeys := [], NumNodes := 3 }

/-- C1 scenario: a plain `-list` invocation. -/
def c1flags : Flags := { noFlags with listKeys := true }

/-- C1 scenario: the dispatcher call succeeds and returns the one pool. -/
def c1client : Except GoString Client := .ok (okClient [c1resp])

/-- C2 scenario: `-list-primary -local-only`. -/
def c2flagsLP : Flags := { noFlags with listPrimaryKeys := true, localOnly := true }

/-- C2 scenario: `-list -local-only`. -/
def c2flagsL : Flags := { noFlags with listKeys := true, localOnly := true }

/-- C2 scenario: `-install=k -local-only` (a mutating kind with local-only). -/
def c2flagsI : Flags :=
  { noFlags with installKey := ['k'], localOnly := true }

/-- C3 scenario: both `-list` and `-list-primary` populated. -/
def c3flags : Flags := { noFlags with listKeys := true, listPrimaryKeys := true }

/-- C4 witness scenario: `-list` with relay factor -1. -/
def c4flags : Flags := { noFlags with listKeys := true, relay := -1 }

/-- C5 witness scenario: `-list` with relay factor 6. -/
def c5flags : Flags := { noFlags with listKeys := true, relay := 6 }

/-- C6 scenario: a pool response with distinct all-keys and primary-keys
counts. -/
def c6resp : KeyringResponse :=
  { WAN := false, Datacenter := ("dc1").toList, Segment := [],
    Messages := [], Keys := [(("k1").toList, 3)],
    PrimaryKeys := [(("k1").toList, 2)], NumNodes := 3 }

/-- C6 scenario: a plain `-list-primary` invocation. -/
def c6flags : Flags := { noFlags with listPrimaryKeys := true }

/-- C6 scenario: the dispatcher call succeeds with the one pool. -/
def c6client : Except GoString Client := .ok (okClient [c6resp])

/-- C7: a two-entry message map in one iteration order. -/
def c7m1 : List (GoString × GoString) := [(['a'], ['x']), (['b'], ['y'])]

/-- C7: the same message map in the other iteration order. -/
def c7m2 : List (GoString × GoString) := [(['b'], ['y']), (['a'], ['x'])]

/-- C7: a pool response presenting the map in the first order. -/
def c7r1 : KeyringResponse :=
  { WAN := false, Datacenter := ['d'], Segment := [], Messages := c7m1,
    Keys := [], PrimaryKeys := [], NumNodes := 2 }

/-- C7: the same pool response presenting the map in the other order. -/
def c7r2 : KeyringResponse := { c7r1 with Messages := c7m2 }

/-- C8: a pool response with one message and one key. -/
def c8resp : KeyringResponse :=
  { WAN := false, Datacenter := ("dc1").toList, Segment := [],
    Messages := [(("n").toList, ("m").toList)], Keys := [(("k").toList, 1)],
    PrimaryKeys := [], NumNodes := 2 }

/-- C9: a pool response whose node message embeds three consecutive
newlines. -/
def c9resp : KeyringResponse :=
  { WAN := false, Datacenter := ['d'], Segment := [],
    Messages := [(['n'], ("a\n\n\nb").toList)], Keys := [], PrimaryKeys := [],
    NumNodes := 1 }

/-- C10 counterexample scenario: `-list` with the out-of-range relay
factor 9. -/
def c10flags : Flags := { noFlags with listKeys := true, relay := 9 }

/-- C10 witness scenario: a plain `-list` invocation. -/
def c10wflags : Flags := { noFlags with listKeys := true }

/-- C1: at the failing input — a read invocation whose dispatcher call
succeeds and returns one PoolResponse carrying a node-keyed error message —
the code renders that pool's diagnostic line in the report but exits with
code 0, where the claim (and the command's own trailing help text) requires
exit code 1. -/
theorem c1_error_message_renders_but_exit_zero :
    (Run c1flags c1client).exitCode = 0 ∧
    ((Run c1flags c1client).output.any fun s =>
      goContains (("  ===> node1: cannot remove primary key").toList) s) = true := by
  decide

/-- C2: at the failing input `-list-primary -local-only` the code rejects
the invocation with the local-only validation error and exits 1 before any
dispatch, where the claim says LocalOnly is accepted for the ListPrimary
kind; by contrast `-list -local-only` is accepted and dispatched, and the
mutating `-install=k -local-only` is rejected before dispatch as the claim
says. -/
theorem c2_list_primary_local_only_rejected :
    (Run c2flagsLP emptyOkClient).exitCode = 1 ∧
    (Run c2flagsLP emptyOkClient).clientRequested = false ∧
    (Run c2flagsLP emptyOkClient).verbs = [] ∧
    (Run c2flagsL emptyOkClient).exitCode = 0 ∧
    (Run c2flagsL emptyOkClient).verbs =
      [Verb.KeyringList { RelayFactor := 0, LocalOnly := true }] ∧
    (Run c2flagsI emptyOkClient).exitCode = 1 ∧
    (Run c2flagsI emptyOkClient).clientRequested = false ∧
    (Run c2flagsI emptyOkClient).verbs = [] := by
  decide

/-- C3: at the failing input — both `-list` and `-list-primary` populated,
two command arguments — the code raises no usage error and dispatches the
list verb with exit code 0, where the claim (and the source's own comment
"Only accept a single argument") says such an invocation fails with a usage
error before any dispatch. -/
theorem c3_two_list_flags_accepted :
    (Run c3flags emptyOkClient).errors = [] ∧
    (Run c3flags emptyOkClient).exitCode = 0 ∧
    (Run c3flags emptyOkClient).branch = some BranchTag.list ∧
    (Run c3flags emptyOkClient).verbs =
      [Verb.KeyringList { RelayFactor := 0, LocalOnly := false }] := by
  decide

/-- C6 counterexample: a `-list-primary` invocation dispatches the same
`KeyringList` verb used by `-list` — no ListPrimary read verb is invoked —
refuting the claim that the dispatcher invokes a distinct ListPrimary verb
of the cluster client. -/
theorem c6_counterexample_same_list_verb :
    (Run c6flags c6client).verbs =
      [Verb.KeyringList { RelayFactor := 0, LocalOnly := false }] ∧
    ((Run c6flags c6client).verbs.any Verb.isListPrimaryVerb) = false ∧
    (Run c6flags c6client).output = [formatResponse c6resp c6resp.PrimaryKeys] := by
  decide

/-- C7 counterexample: two pool responses presenting the same two-entry
message mapping in the two iteration orders render to different bytes, so
the formatter is not a function of the mapping alone. -/
theorem c7_counterexample_order_changes_bytes :
    c7r1.Messages.Perm c7r2.Messages ∧
    c7r1.WAN = c7r2.WAN ∧ c7r1.Datacenter = c7r2.Datacenter ∧
    c7r1.Segment = c7r2.Segment ∧ c7r1.Keys = c7r2.Keys ∧
    c7r1.NumNodes = c7r2.NumNodes ∧
    formatResponse c7r1 c7r1.Keys ≠ formatResponse c7r2 c7r2.Keys := by
  refine ⟨?_, rfl, rfl, rfl, rfl, rfl, by decide⟩
  simp only [c7r1, c7r2, c7m1, c7m2]
  exact List.Perm.swap _ _ _

/-- C8 counterexample: at a pool response with one message and one key the
source block differs from the block the claim describes: the header line
carries a trailing colon, the block opens with a separating newline, and
diagnostic lines carry a `===> ` marker. -/
theorem c8_counterexample_block_shape :
    formatResponse c8resp c8resp.Keys ≠ claimedBlockC8 c8resp c8resp.Keys := by
  decide

/-- C9 counterexample: a node message embedding three consecutive newlines
leaves two consecutive newlines in the final output — the single
replacement pass does not collapse every run of blank lines to one. -/
theorem c9_counterexample_double_newline_remains :
    hasNN (formatResponse c9resp c9resp.Keys) = true := by
  decide

/-- C10 counterexample: `-list` with relay factor 9 passes the single-action
check, yet no command branch executes (the relay validation exits first),
refuting the claim that passing flag parsing and the single-action check
makes exactly one of the five command branches execute. -/
theorem c10_counterexample_no_branch_executes :
    singleLoop (c10flags.listKeys || c10flags.listPrimaryKeys)
      [c10flags.installKey, c10flags.useKey, c10flags.removeKey] = some true ∧
    (Run c10flags emptyOkClient).branch = none ∧
    (Run c10flags emptyOkClient).exitCode = 1 := by
  decide

theorem digitChar_ne_nl (d : Nat) : digitChar d ≠ '\n' := by
  unfold digitChar
  repeat' split
  all_goals decide

theorem natCharsAux_no_nl : ∀ (fuel n : Nat), '\n' ∉ natCharsAux fuel n := by
  intro fuel
  induction fuel with
  | zero => intro n; simp [natCharsAux]
  | succ fuel ih =>
    intro n
    simp only [natCharsAux]
    split
    · simp only [List.mem_singleton]
      exact fun h => digitChar_ne_nl n h.symm
    · intro hmem
      rcases List.mem_append.mp hmem with h | h
      · exact ih _ h
      · exact digitChar_ne_nl _ (List.mem_singleton.mp h).symm

theorem natChars_no_nl (n : Nat) : '\n' ∉ natChars n :=
  natCharsAux_no_nl (n + 1) n

theorem intChars_no_nl (i : Int) : '\n' ∉ intChars i := by
  unfold intChars
  split
  · intro hmem
    rcases List.mem_cons.mp hmem with h | h
    · exact absurd h (by decide)
    · exact natChars_no_nl _ h
  · exact natChars_no_nl _

theorem chainNotNN_of_no_nl (s : GoString) (h : '\n' ∉ s) : List.Chain' NotNN s := by
  induction s with
  | nil => simp
  | cons c rest ih =>
    rw [List.chain'_cons']
    constructor
    · intro y _ hy
      exact h (hy.1 ▸ List.mem_cons_self c rest)
    · exact ih (fun hm => h (List.mem_cons_of_mem _ hm))

theorem collapseNN_eq_self : ∀ s : GoString, List.Chain' NotNN s → collapseNN s = s
  | [], _ => rfl
  | [c], _ => rfl
  | c1 :: c2 :: rest, h => by
    have h12 : NotNN c1 c2 := (List.chain'_cons.mp h).1
    simp only [collapseNN]
    rw [if_neg h12]
    rw [collapseNN_eq_self (c2 :: rest) (List.chain'_cons.mp h).2]

theorem hasNN_false_of_chain : ∀ s : GoString, List.Chain' NotNN s → hasNN s = false
  | [], _ => rfl
  | [_], _ => rfl
  | c1 :: c2 :: rest, h => by
    simp only [hasNN]
    rw [if_neg (List.chain'_cons.mp h).1]
    exact hasNN_false_of_chain (c2 :: rest) (List.chain'_cons.mp h).2

theorem head?_ne_nl_of_no_nl (s : GoString) (h : '\n' ∉ s) : s.head? ≠ some '\n' := by
  cases s with
  | nil => simp
  | cons c t =>
    simp only [List.head?_cons, ne_eq, Option.some.injEq]
    intro hc
    exact h (hc ▸ List.mem_cons_self c t)

theorem getLast?_ne_nl_of_no_nl (s : GoString) (h : '\n' ∉ s) :
    s.getLast? ≠ some '\n' := by
  intro hl
  rcases List.mem_getLast?_eq_getLast (Option.mem_def.mpr hl) with ⟨hne, heq⟩
  exact h (heq ▸ List.getLast_mem hne)

theorem collapseNN_noNl_append : ∀ (xs rest : GoString), '\n' ∉ xs →
    collapseNN (xs ++ rest) = xs ++ collapseNN rest
  | [], _, _ => rfl
  | c :: xs, rest, h => by
    have hc : c ≠ '\n' := fun hh => h (hh ▸ List.mem_cons_self c xs)
    cases hxr : xs ++ rest with
    | nil =>
      rcases List.append_eq_nil.mp hxr with ⟨h1, h2⟩
      subst h1; subst h2
      rfl
    | cons d t =>
      rw [List.cons_append, hxr]
      simp only [collapseNN]
      rw [if_neg (fun hh => hc hh.1)]
      rw [← hxr,
        collapseNN_noNl_append xs rest (fun hm => h (List.mem_cons_of_mem _ hm))]
      rfl

theorem collapseNN_cons_nl (rest : GoString) (h : rest.head? ≠ some '\n') :
    collapseNN ('\n' :: rest) = '\n' :: collapseNN rest := by
  cases rest with
  | nil => rfl
  | cons d t =>
    have hd : d ≠ '\n' := by
      intro hh
      exact h (by rw [hh]; rfl)
    simp only [collapseNN]
    rw [if_neg (fun hh => hd hh.2)]

theorem goJoin_ne_nil (x : GoString) (L : List GoString) (hx : x ≠ []) :
    goJoin nl (x :: L) ≠ [] := by
  cases L with
  | nil => exact hx
  | cons y t =>
    simp only [goJoin]
    intro hcon
    exact hx (List.append_eq_nil.mp
      (List.append_eq_nil.mp hcon).1).1

theorem goJoin_cons (x : GoString) (L : List GoString) (hL : L ≠ []) :
    goJoin nl (x :: L) = x ++ '\n' :: goJoin nl L := by
  cases L with
  | nil => exact absurd rfl hL
  | cons y t => simp [goJoin, nl]

theorem goJoin_append : ∀ (A B : List GoString), A ≠ [] → B ≠ [] →
    goJoin nl (A ++ B) = goJoin nl A ++ '\n' :: goJoin nl B
  | [], _, hA, _ => absurd rfl hA
  | [a], B, _, hB => by
    rw [List.singleton_append, goJoin_cons a B hB]
    rfl
  | a :: a' :: A', B, _, hB => by
    rw [List.cons_append,
      goJoin_cons a ((a' :: A') ++ B) (by simp),
      goJoin_append (a' :: A') B (by simp) hB,
      goJoin_cons a (a' :: A') (by simp)]
    simp [List.append_assoc]

theorem chain_join_lines : ∀ L : List GoString,
    (∀ s ∈ L, s ≠ [] ∧ '\n' ∉ s) →
    List.Chain' NotNN (goJoin nl L) ∧
    (goJoin nl L).head? ≠ some '\n' ∧ (goJoin nl L).getLast? ≠ some '\n'
  | [], _ => by simp [goJoin]
  | [x], h => by
    have hx := h x (List.mem_singleton_self x)
    exact ⟨chainNotNN_of_no_nl x hx.2, head?_ne_nl_of_no_nl x hx.2,
      getLast?_ne_nl_of_no_nl x hx.2⟩
  | x :: y :: L, h => by
    have hx := h x (by simp)
    have ih := chain_join_lines (y :: L) (fun s hs => h s (List.mem_cons_of_mem _ hs))
    have hJne : goJoin nl (y :: L) ≠ [] := goJoin_ne_nil y L (h y (by simp)).1
    have hshape : goJoin nl (x :: y :: L) = x ++ ('\n' :: goJoin nl (y :: L)) := by
      simp [goJoin, nl]
    rw [hshape]
    refine ⟨?_, ?_, ?_⟩
    · rw [List.chain'_append]
      refine ⟨chainNotNN_of_no_nl x hx.2, ?_, ?_⟩
      · rw [List.chain'_cons']
        refine ⟨?_, ih.1⟩
        intro c hc hcon
        exact ih.2.1 (hcon.2 ▸ Option.mem_def.mp hc)
      · intro a ha b _hb hcon
        exact getLast?_ne_nl_of_no_nl x hx.2 (hcon.1 ▸ Option.mem_def.mp ha)
    · rw [List.head?_append_of_ne_nil x hx.1]
      exact head?_ne_nl_of_no_nl x hx.2
    · rw [List.getLast?_append_of_ne_nil x (by simp)]
      have hlast : ('\n' :: goJoin nl (y :: L)).getLast? =
          (goJoin nl (y :: L)).getLast? :=
        List.getLast?_append_of_ne_nil ['\n'] hJne
      rw [hlast]
      exact ih.2.2

theorem msgLine_good (p : GoString × GoString) (h1 : '\n' ∉ p.1)
    (h2 : '\n' ∉ p.2) : msgLine p ≠ [] ∧ '\n' ∉ msgLine p := by
  constructor
  · simp [msgLine]
  · simp only [msgLine, List.mem_append, or_assoc]
    rintro (h | h | h | h)
    · exact absurd h (by decide)
    · exact h1 h
    · exact absurd h (by decide)
    · exact h2 h

theorem keyLine_good (total : Int) (p : GoString × Int) (h1 : '\n' ∉ p.1) :
    keyLine total p ≠ [] ∧ '\n' ∉ keyLine total p := by
  constructor
  · simp [keyLine]
  · simp only [keyLine, List.mem_append, or_assoc]
    rintro (h | h | h | h | h | h | h)
    · exact absurd h (by decide)
    · exact h1 h
    · exact absurd h (by decide)
    · exact intChars_no_nl _ h
    · exact absurd h (by decide)
    · exact intChars_no_nl _ h
    · exact absurd h (by decide)

theorem poolName_no_nl (dc seg : GoString) (wan : Bool) (hdc : '\n' ∉ dc)
    (hseg : '\n' ∉ seg) : '\n' ∉ poolName dc wan seg := by
  simp only [poolName]
  intro hmem
  rcases List.mem_append.mp hmem with h | h
  · split at h
    · exact absurd h (by decide)
    · rcases List.mem_append.mp h with h | h
      · exact hdc h
      · exact absurd h (by decide)
  · split at h
    · rcases List.mem_append.mp h with h | h
      · rcases List.mem_append.mp h with h | h
        · exact absurd h (by decide)
        · exact hseg h
      · exact absurd h (by decide)
    · exact hseg h

theorem headerLine_good (dc seg : GoString) (wan : Bool) (hdc : '\n' ∉ dc)
    (hseg : '\n' ∉ seg) :
    poolName dc wan seg ++ [':'] ≠ [] ∧ '\n' ∉ poolName dc wan seg ++ [':'] := by
  constructor
  · simp
  · intro hmem
    rcases List.mem_append.mp hmem with h | h
    · exact poolName_no_nl dc seg wan hdc hseg h
    · exact absurd h (by decide)

theorem goJoin_four (h m k : GoString) :
    goJoin nl [[], h, m, k] = '\n' :: (h ++ ('\n' :: (m ++ ('\n' :: k)))) := by
  simp [goJoin, nl, List.append_assoc]

theorem collapse_sections (hdr M K : GoString)
    (hne : hdr ≠ []) (hnl : '\n' ∉ hdr)
    (hMc : List.Chain' NotNN M) (hMh : M.head? ≠ some '\n')
    (hMl : M.getLast? ≠ some '\n')
    (hKc : List.Chain' NotNN K) (hKh : K.head? ≠ some '\n') :
    collapseNN ('\n' :: (hdr ++ ('\n' :: (M ++ ('\n' :: K))))) =
      '\n' :: (hdr ++
        (if M = [] then '\n' :: K else '\n' :: (M ++ ('\n' :: K)))) := by
  have hstep1 : (hdr ++ ('\n' :: (M ++ ('\n' :: K)))).head? ≠ some '\n' := by
    rw [List.head?_append_of_ne_nil hdr hne]
    exact head?_ne_nl_of_no_nl hdr hnl
  rw [collapseNN_cons_nl _ hstep1, collapseNN_noNl_append hdr _ hnl]
  refine congrArg (fun t => '\n' :: (hdr ++ t)) ?_
  cases M with
  | nil =>
    simp only [List.nil_append, if_pos rfl]
    have h2 : collapseNN ('\n' :: '\n' :: K) = '\n' :: collapseNN K := by
      simp [collapseNN]
    rw [h2, collapseNN_eq_self K hKc]
    simp
  | cons m0 ms =>
    have hm0 : m0 ≠ '\n' := by
      intro hh
      exact hMh (by rw [hh]; rfl)
    have hstep2 : ((m0 :: ms) ++ ('\n' :: K)).head? ≠ some '\n' := by
      rw [List.head?_append_of_ne_nil _ (by simp)]
      simp only [List.head?_cons, ne_eq, Option.some.injEq]
      exact hm0
    rw [collapseNN_cons_nl _ hstep2]
    have hchain : List.Chain' NotNN ((m0 :: ms) ++ ('\n' :: K)) := by
      rw [List.chain'_append]
      refine ⟨hMc, ?_, ?_⟩
      · rw [List.chain'_cons']
        refine ⟨?_, hKc⟩
        intro y hy hcon
        exact hKh (hcon.2 ▸ Option.mem_def.mp hy)
      · intro a ha b _hb hcon
        exact hMl (hcon.1 ▸ Option.mem_def.mp ha)
    rw [collapseNN_eq_self _ hchain]
    simp

theorem formatResponse_layout (r : KeyringResponse) (keys : List (GoString × Int))
    (hdc : '\n' ∉ r.Datacenter) (hseg : '\n' ∉ r.Segment)
    (hmsg : ∀ p ∈ r.Messages, '\n' ∉ p.1 ∧ '\n' ∉ p.2)
    (hkey : ∀ p ∈ keys, '\n' ∉ p.1) :
    formatResponse r keys =
      '\n' :: (goJoin nl
        ((poolName r.Datacenter r.WAN r.Segment ++ [':']) ::
         (r.Messages.map msgLine ++ keys.map (keyLine r.NumNodes))) ++
       (if keys = [] then nl else [])) := by
  have hhdrG := headerLine_good r.Datacenter r.Segment r.WAN hdc hseg
  have hmlG : ∀ s ∈ r.Messages.map msgLine, s ≠ [] ∧ '\n' ∉ s := by
    intro s hs
    rcases List.mem_map.mp hs with ⟨p, hp, rfl⟩
    exact msgLine_good p (hmsg p hp).1 (hmsg p hp).2
  have hklG : ∀ s ∈ keys.map (keyLine r.NumNodes), s ≠ [] ∧ '\n' ∉ s := by
    intro s hs
    rcases List.mem_map.mp hs with ⟨p, hp, rfl⟩
    exact keyLine_good r.NumNodes p (hkey p hp)
  have hM := chain_join_lines (r.Messages.map msgLine) hmlG
  have hK := chain_join_lines (keys.map (keyLine r.NumNodes)) hklG
  unfold formatResponse formatMessages formatKeys
  rw [goJoin_four,
    collapse_sections (poolName r.Datacenter r.WAN r.Segment ++ [':'])
      (goJoin nl (r.Messages.map msgLine))
      (goJoin nl (keys.map (keyLine r.NumNodes)))
      hhdrG.1 hhdrG.2 hM.1 hM.2.1 hM.2.2 hK.1 hK.2.1]
  set hdr := poolName r.Datacenter r.WAN r.Segment ++ [':'] with hdrdef
  cases hks : keys with
  | nil =>
    cases hms : r.Messages with
    | nil => simp [goJoin, nl]
    | cons p ps =>
      simp only [List.map_cons, List.map_nil, List.append_nil]
      have hMne : goJoin nl (msgLine p :: ps.map msgLine) ≠ [] := by
        refine goJoin_ne_nil _ _ ?_
        exact (hmlG (msgLine p) (by rw [hms]; simp)).1
      rw [if_neg hMne,
        goJoin_cons hdr (msgLine p :: ps.map msgLine) (by simp)]
      simp [goJoin, nl, List.append_assoc]
  | cons k0 ks =>
    cases hms : r.Messages with
    | nil =>
      simp only [List.map_cons, List.map_nil, List.nil_append]
      rw [goJoin_cons hdr
        (keyLine r.NumNodes k0 :: ks.map (keyLine r.NumNodes)) (by simp)]
      simp [goJoin, nl, List.append_assoc]
    | cons p ps =>
      simp only [List.map_cons, List.map_nil]
      have hMne : goJoin nl (msgLine p :: ps.map msgLine) ≠ [] := by
        refine goJoin_ne_nil _ _ ?_
        exact (hmlG (msgLine p) (by rw [hms]; simp)).1
      rw [if_neg hMne,
        goJoin_cons hdr
          ((msgLine p :: ps.map msgLine) ++
           (keyLine r.NumNodes k0 :: ks.map (keyLine r.NumNodes))) (by simp),
        goJoin_append (msgLine p :: ps.map msgLine)
          (keyLine r.NumNodes k0 :: ks.map (keyLine r.NumNodes)) (by simp) (by simp)]
      simp [goJoin, nl, List.append_assoc]

/-- C4: the Relay Policy accepts an integer relay factor exactly when it
lies in [0, 5]; with any other value the invocation exits 1 before any
client construction or dispatch. -/
theorem c4_relay_factor_range (c : Flags) (cl : Except GoString Client) :
    ((exceptOk (ParseRelayFactor c.relay) = true) ↔ (0 ≤ c.relay ∧ c.relay ≤ 5)) ∧
    (exceptOk (ParseRelayFactor c.relay) = false →
      (Run c cl).exitCode = 1 ∧ (Run c cl).clientRequested = false ∧
      (Run c cl).verbs = []) := by
  constructor
  · by_cases h : 0 ≤ c.relay ∧ c.relay ≤ 5
    · simp [ParseRelayFactor, h, exceptOk]
    · simp [ParseRelayFactor, h, exceptOk]
  · intro hfail
    cases hsl : singleLoop (c.listKeys || c.listPrimaryKeys)
        [c.installKey, c.useKey, c.removeKey] with
    | none => simp [Run, hsl]
    | some found =>
      cases found with
      | false => simp [Run, hsl]
      | true =>
        cases hpc : ParseRelayFactor c.relay with
        | ok rf => rw [hpc] at hfail; simp [exceptOk] at hfail
        | error e => simp [Run, hsl, hpc]

/-- C4 witness: relay factor -1 is outside [0, 5] and the invocation
exits 1 with no client construction and no dispatched verb. -/
theorem c4_relay_factor_range_w :
    (Run c4flags emptyOkClient).exitCode = 1 ∧
    (Run c4flags emptyOkClient).clientRequested = false ∧
    (Run c4flags emptyOkClient).verbs = [] :=
  (c4_relay_factor_range c4flags emptyOkClient).2 (by decide)

/-- C5: when the relay factor or the local-only option is invalid, or the
single-action selection fails, the invocation exits 1 without any network
interaction: the client is never constructed and no dispatcher verb is
invoked. -/
theorem c5_invalid_options_no_network (c : Flags) (cl : Except GoString Client)
    (h : singleLoop (c.listKeys || c.listPrimaryKeys)
           [c.installKey, c.useKey, c.removeKey] ≠ some true ∨
         exceptOk (ParseRelayFactor c.relay) = false ∨
         exceptOk (ValidateLocalOnly c.localOnly c.listKeys) = false) :
    (Run c cl).exitCode = 1 ∧ (Run c cl).clientRequested = false ∧
    (Run c cl).verbs = [] := by
  cases hsl : singleLoop (c.listKeys || c.listPrimaryKeys)
      [c.installKey, c.useKey, c.removeKey] with
  | none => simp [Run, hsl]
  | some found =>
    cases found with
    | false => simp [Run, hsl]
    | true =>
      rcases h with h | h | h
      · exact absurd hsl h
      · cases hpc : ParseRelayFactor c.relay with
        | ok rf => rw [hpc] at h; simp [exceptOk] at h
        | error e => simp [Run, hsl, hpc]
      · cases hpc : ParseRelayFactor c.relay with
        | error e => simp [Run, hsl, hpc]
        | ok rf =>
          cases hvc : ValidateLocalOnly c.localOnly c.listKeys with
          | ok u => rw [hvc] at h; simp [exceptOk] at h
          | error e => simp [Run, hsl, hpc, hvc]

/-- C5 witness: `-list` with relay factor 6 exits 1 with no client
construction and no dispatched verb. -/
theorem c5_invalid_options_no_network_w :
    (Run c5flags emptyOkClient).exitCode = 1 ∧
    (Run c5flags emptyOkClient).clientRequested = false ∧
    (Run c5flags emptyOkClient).verbs = [] :=
  c5_invalid_options_no_network c5flags emptyOkClient (Or.inr (Or.inl (by decide)))

/-- C6 (amended): a ListPrimary invocation dispatches the same KeyringList
read verb used by List (the client used by the code has no separate
ListPrimary verb), and the rendered per-pool key-status lines are drawn
from the primary-key counts (`PrimaryKeys`) of each PoolResponse. -/
theorem c6_amended_list_primary_dispatch (c : Flags) (client : Client)
    (rf : Nat) (responses : List KeyringResponse)
    (hlk : c.listKeys = false) (hlp : c.listPrimaryKeys = true)
    (hsl : singleLoop (c.listKeys || c.listPrimaryKeys)
             [c.installKey, c.useKey, c.removeKey] = some true)
    (hpc : ParseRelayFactor c.relay = .ok rf)
    (hvc : ValidateLocalOnly c.localOnly c.listKeys = .ok ())
    (hcall : client.keyringList { RelayFactor := rf, LocalOnly := c.localOnly } =
      .ok responses) :
    (Run c (.ok client)).verbs =
      [Verb.KeyringList { RelayFactor := rf, LocalOnly := c.localOnly }] ∧
    (Run c (.ok client)).output =
      responses.map (fun r => formatResponse r r.PrimaryKeys) ∧
    (Run c (.ok client)).branch = some BranchTag.listPrimary := by
  simp only [Run, hsl]
  simp only [hpc, hvc]
  simp [hlk, hlp, hcall]

/-- C6 amended witness: the concrete `-list-primary` invocation dispatches
the KeyringList verb and renders the primary-key counts. -/
theorem c6_amended_list_primary_dispatch_w :
    (Run c6flags (.ok (okClient [c6resp]))).verbs =
      [Verb.KeyringList { RelayFactor := 0, LocalOnly := false }] ∧
    (Run c6flags (.ok (okClient [c6resp]))).output =
      [c6resp].map (fun r => formatResponse r r.PrimaryKeys) ∧
    (Run c6flags (.ok (okClient [c6resp]))).branch = some BranchTag.listPrimary :=
  c6_amended_list_primary_dispatch c6flags (okClient [c6resp]) 0 [c6resp]
    rfl rfl (by decide) rfl rfl rfl

/-- C7 (amended): the formatter is deterministic in the presented entry
sequence, and permuting the message entries of the same mapping permutes
the rendered diagnostic lines: both renderings are newline-joins of
line lists that are permutations of each other. -/
theorem c7_amended_same_lines_up_to_order (m1 m2 : List (GoString × GoString))
    (h : m1.Perm m2) :
    ∃ l1 l2 : List GoString, l1.Perm l2 ∧
      formatMessages m1 = goJoin nl l1 ∧ formatMessages m2 = goJoin nl l2 :=
  ⟨m1.map msgLine, m2.map msgLine, h.map msgLine, rfl, rfl⟩

/-- C7 amended witness: the two iteration orders of the concrete two-entry
map render to newline-joins of permuted line lists. -/
theorem c7_amended_same_lines_up_to_order_w :
    ∃ l1 l2 : List GoString, l1.Perm l2 ∧
      formatMessages c7m1 = goJoin nl l1 ∧ formatMessages c7m2 = goJoin nl l2 :=
  c7_amended_same_lines_up_to_order c7m1 c7m2 (by decide)

theorem singleLoop_some : ∀ (args : List GoString) (f g : Bool),
    singleLoop f args = some g →
    g = (f || args.any fun a => decide (0 < a.length))
  | [], f, g, h => by
    simp only [singleLoop, Option.some.injEq] at h
    simp [← h]
  | a :: rest, f, g, h => by
    simp only [singleLoop] at h
    by_cases hc : (f && decide (0 < a.length)) = true
    · rw [if_pos hc] at h
      exact absurd h (by simp)
    · rw [if_neg hc] at h
      have hrec := singleLoop_some rest _ _ h
      rw [List.any_cons, hrec, Bool.or_assoc]

/-- C10 (amended): for every invocation that passes flag parsing, the
single-action check, both option validations and the client construction,
exactly one of the five command branches executes and returns (a branch is
recorded and the trailing fall-through return is not reached); the
fall-through return at the end of `Run` is unreachable. -/
theorem c10_amended_one_branch_executes (c : Flags) (client : Client)
    (hsl : singleLoop (c.listKeys || c.listPrimaryKeys)
             [c.installKey, c.useKey, c.removeKey] = some true)
    (hp : exceptOk (ParseRelayFactor c.relay) = true)
    (hv : exceptOk (ValidateLocalOnly c.localOnly c.listKeys) = true) :
    ((Run c (.ok client)).branch).isSome = true ∧
    (Run c (.ok client)).fellThrough = false := by
  cases hpc : ParseRelayFactor c.relay with
  | error e => rw [hpc] at hp; simp [exceptOk] at hp
  | ok rf =>
  cases hvc : ValidateLocalOnly c.localOnly c.listKeys with
  | error e => rw [hvc] at hv; simp [exceptOk] at hv
  | ok u =>
  cases u
  simp only [Run, hsl]
  simp only [hpc, hvc]
  cases hlk : c.listKeys with
  | true =>
    cases hcall : client.keyringList { RelayFactor := rf, LocalOnly := c.localOnly } with
    | ok rs => simp [hlk, hcall]
    | error e => simp [hlk, hcall]
  | false =>
    cases hlp : c.listPrimaryKeys with
    | true =>
      cases hcall : client.keyringList { RelayFactor := rf, LocalOnly := c.localOnly } with
      | ok rs => simp [hlk, hlp, hcall]
      | error e => simp [hlk, hlp, hcall]
    | false =>
      have hany := singleLoop_some _ _ _ hsl
      rw [hlk, hlp] at hany
      simp only [Bool.false_or, List.any_cons, List.any_nil, Bool.or_false] at hany
      by_cases hik : c.installKey = []
      · by_cases huk : c.useKey = []
        · by_cases hrk : c.removeKey = []
          · rw [hik, huk, hrk] at hany
            simp at hany
          · cases hcall : client.keyringRemove c.removeKey { RelayFactor := rf } with
            | ok v => simp [hlk, hlp, hik, huk, hrk, hcall]
            | error e => simp [hlk, hlp, hik, huk, hrk, hcall]
        · cases hcall : client.keyringUse c.useKey { RelayFactor := rf } with
          | ok v => simp [hlk, hlp, hik, huk, hcall]
          | error e => simp [hlk, hlp, hik, huk, hcall]
      · cases hcall : client.keyringInstall c.installKey { RelayFactor := rf } with
        | ok v => simp [hlk, hlp, hik, hcall]
        | error e => simp [hlk, hlp, hik, hcall]

/-- C10 amended witness: a plain `-list` invocation against a working
client records the list branch and does not reach the fall-through
return. -/
theorem c10_amended_one_branch_executes_w :
    ((Run c10wflags (.ok (okClient []))).branch).isSome = true ∧
    (Run c10wflags (.ok (okClient []))).fellThrough = false :=
  c10_amended_one_branch_executes c10wflags (okClient [])
    (by decide) (by decide) (by decide)

/-- C8 (amended): for every pool response whose datacenter, segment, node
messages and key names are newline-free, the formatted block consists of a
leading separator newline, a header line `"<site> (LAN)"` for a local pool
and `"WAN"` for the wide-area pool (suffixed with `" [<segment>]"` when a
segment is present) followed by a trailing colon, then one indented line
per node-keyed message in the format `"  ===> <from>: <message>"`, then one
indented line per key in the format `"  <key> [<count>/<total>]"`; a
trailing newline remains when the key section is empty. -/
theorem c8_amended_block_shape (r : KeyringResponse) (keys : List (GoString × Int))
    (hdc : '\n' ∉ r.Datacenter) (hseg : '\n' ∉ r.Segment)
    (hmsg : ∀ p ∈ r.Messages, '\n' ∉ p.1 ∧ '\n' ∉ p.2)
    (hkey : ∀ p ∈ keys, '\n' ∉ p.1) :
    formatResponse r keys =
      '\n' :: (goJoin nl
        ((poolName r.Datacenter r.WAN r.Segment ++ [':']) ::
         (r.Messages.map msgLine ++ keys.map (keyLine r.NumNodes))) ++
       (if keys = [] then nl else [])) :=
  formatResponse_layout r keys hdc hseg hmsg hkey

/-- C8 amended witness: the concrete one-message one-key response formats
to the amended block shape. -/
theorem c8_amended_block_shape_w :
    formatResponse c8resp c8resp.Keys =
      '\n' :: (goJoin nl
        ((poolName c8resp.Datacenter c8resp.WAN c8resp.Segment ++ [':']) ::
         (c8resp.Messages.map msgLine ++
          c8resp.Keys.map (keyLine c8resp.NumNodes))) ++
       (if c8resp.Keys = [] then nl else [])) :=
  c8_amended_block_shape c8resp c8resp.Keys (by decide) (by decide) (by decide)
    (by decide)

/-- C9 (amended): blank sections are omitted — for every pool response
whose datacenter, segment, node messages and key names are newline-free,
the final output contains no two consecutive newline characters; runs of
newlines embedded in message text itself are only reduced by the single
replacement pass, not collapsed to one. -/
theorem c9_amended_blank_collapse (r : KeyringResponse)
    (keys : List (GoString × Int))
    (hdc : '\n' ∉ r.Datacenter) (hseg : '\n' ∉ r.Segment)
    (hmsg : ∀ p ∈ r.Messages, '\n' ∉ p.1 ∧ '\n' ∉ p.2)
    (hkey : ∀ p ∈ keys, '\n' ∉ p.1) :
    hasNN (formatResponse r keys) = false := by
  rw [formatResponse_layout r keys hdc hseg hmsg hkey]
  have hhdrG := headerLine_good r.Datacenter r.Segment r.WAN hdc hseg
  have hall : ∀ s ∈ ((poolName r.Datacenter r.WAN r.Segment ++ [':']) ::
      (r.Messages.map msgLine ++ keys.map (keyLine r.NumNodes))),
      s ≠ [] ∧ '\n' ∉ s := by
    intro s hs
    rcases List.mem_cons.mp hs with rfl | hs
    · exact hhdrG
    · rcases List.mem_append.mp hs with hs | hs
      · rcases List.mem_map.mp hs with ⟨p, hp, rfl⟩
        exact msgLine_good p (hmsg p hp).1 (hmsg p hp).2
      · rcases List.mem_map.mp hs with ⟨p, hp, rfl⟩
        exact keyLine_good r.NumNodes p (hkey p hp)
  have hJ := chain_join_lines _ hall
  have hJne : goJoin nl ((poolName r.Datacenter r.WAN r.Segment ++ [':']) ::
      (r.Messages.map msgLine ++ keys.map (keyLine r.NumNodes))) ≠ [] :=
    goJoin_ne_nil _ _ hhdrG.1
  apply hasNN_false_of_chain
  cases keys with
  | nil =>
    rw [if_pos rfl]
    rw [List.chain'_cons']
    constructor
    · intro y hy hcon
      rw [List.head?_append_of_ne_nil _ hJne] at hy
      exact hJ.2.1 (hcon.2 ▸ Option.mem_def.mp hy)
    · rw [List.chain'_append]
      refine ⟨hJ.1, by simp [nl], ?_⟩
      intro a ha b _hb hcon
      exact hJ.2.2 (hcon.1 ▸ Option.mem_def.mp ha)
  | cons k0 ks =>
    rw [if_neg (by simp), List.append_nil]
    rw [List.chain'_cons']
    refine ⟨?_, hJ.1⟩
    intro y hy hcon
    exact hJ.2.1 (hcon.2 ▸ Option.mem_def.mp hy)

/-- C9 amended witness: the concrete one-message one-key response renders
with no two consecutive newlines. -/
theorem c9_amended_blank_collapse_w :
    hasNN (formatResponse c8resp c8resp.Keys) = false :=
  c9_amended_blank_collapse c8resp c8resp.Keys (by decide) (by decide)
    (by decide) (by decide)
